import Mathlib

/-!
Shallow embedding of `tonic/models/vic/vic.py`: the `VIC` runner
(`_call_vic`, `run`) and the ASCII output reader `read_vic_ascii`.

Python strings and byte strings are both modelled as `String`; Python
values flowing through `**kwargs` as `PyVal`; the filesystem as a map
from path to file contents (`String → Option String`); the environment
as `String → Option String`; and the spawned subprocess as an oracle
`String → String × String × Int` giving (stdout, stderr, returncode)
for a command string.
-/

/-- Python values that appear as `**kwargs` arguments or as argument-list
elements in `_call_vic` (`None`, `bool`, `int`, `str`).  `bool` is kept
separate because Python treats it as a subtype of `int` (`True == 1`). -/
inductive PyVal where
  | none
  | bool (b : Bool)
  | int (n : Int)
  | str (s : String)
deriving DecidableEq

/-- `isinstance(v, int)` — Python booleans are instances of `int`. -/
def PyVal.isInt : PyVal → Bool
  | .int _ => true
  | .bool _ => true
  | _ => false

/-- The integer value of an `int`-like Python value (`True == 1`,
`False == 0`); 0 for the others (unused there). -/
def PyVal.intVal : PyVal → Int
  | .int n => n
  | .bool b => if b then 1 else 0
  | _ => 0

/-- Python truthiness, as used by `if valgrind:` and `if logdir:`. -/
def PyVal.truthy : PyVal → Bool
  | .none => false
  | .bool b => b
  | .int n => n != 0
  | .str s => !(s.isEmpty)

def PyVal.isStr : PyVal → Bool
  | .str _ => true
  | _ => false

def PyVal.strVal : PyVal → String
  | .str s => s
  | _ => ""

/-- The Python exceptions raised by the embedded code paths. -/
inductive PyError where
  | typeError (msg : String)
  | valueError (msg : String)
  | stopIteration
deriving DecidableEq

/-- The mutable state of a `VIC` handle: the validated executable path and
the fields `_call_vic` overwrites (`args`, `argstring`, `stdout`,
`stderr`, `returncode`). -/
structure VICState where
  executable : String
  args : List PyVal
  argstring : String
  stdout : String
  stderr : String
  returncode : Int
deriving DecidableEq

def default_vic_valgrind_error_code : Nat := 125

def default_vic_valgrind_suppressions_path : String := "vic_valgrind_suppressions.supp"

/-- `'%.0d' % n`: printf `d` conversion with zero precision, so the value 0
renders as the empty string; any other integer renders in decimal. -/
def formatNpD (n : Int) : String :=
  if n = 0 then "" else toString n

/-- `sep.join(l)` for a list of actual strings. -/
def joinStrs (sep : String) : List String → String
  | [] => ""
  | [s] => s
  | s :: rest => s ++ sep ++ joinStrs sep rest

/-- `' '.join(args)` over Python values: raises `TypeError` when any element
is not a `str` (in particular when `None` is in the list). -/
def pyJoinArgs (sep : String) (l : List PyVal) : Except PyError String :=
  if l.all PyVal.isStr then .ok (joinStrs sep (l.map PyVal.strVal))
  else .error (.typeError "sequence item: expected str instance")

/-- Models `kwargs.pop(key, None)` on a Python dict.  Keys of a Python dict
are unique, so removing every pair carrying the key coincides with removing
the single entry; the popped value is the first (only) binding. -/
def kwPop (kw : List (String × PyVal)) (key : String) : PyVal × List (String × PyVal) :=
  (((kw.find? (fun kv => kv.1 == key)).map Prod.snd).getD PyVal.none,
   kw.filter (fun kv => kv.1 != key))

/-- Lines 105-115 of `vic.py` (`# Get mpi info`): pop `mpi_proc` (an integer
equal to 1 collapses to `None`), pop `mpi_exe`, and for a remaining
non-`None` `mpi_proc` either raise `TypeError` when it is not an integer or
put `[mpi_exe, '-np', '%.0d' % mpi_proc]` at the front of the argument
list. -/
def mpiStage (st : VICState) (kw : List (String × PyVal)) :
    Except (PyError × VICState) (VICState × List (String × PyVal)) :=
  let p0 := (kwPop kw "mpi_proc").1
  let kw1 := (kwPop kw "mpi_proc").2
  let p := if p0.isInt && (p0.intVal == 1) then PyVal.none else p0
  let mpiExe := (kwPop kw1 "mpi_exe").1
  let kw2 := (kwPop kw1 "mpi_exe").2
  if p = PyVal.none then .ok (st, kw2)
  else if p.isInt then
    .ok ({ st with args := st.args ++ [mpiExe, PyVal.str "-np", PyVal.str (formatNpD p.intVal)] }, kw2)
  else .error (.typeError "number of processors must be specified as aninteger", st)

/-- Lines 117-130 of `vic.py` (`# Get valgrind info`): pop `valgrind`; when
truthy, the boolean `True` becomes the bare name `'valgrind'`, the
leak-check flags are appended with the error exit code taken from the
`VIC_VALGRIND_ERROR` environment variable (default 125), and the
suppressions flag is appended exactly when the suppressions file (path from
`VIC_VALGRIND_SUPPRESSIONS`, with its default) exists. -/
def valgrindStage (fs : String → Option String) (getenv : String → Option String)
    (st : VICState) (kw : List (String × PyVal)) : VICState × List (String × PyVal) :=
  let v := (kwPop kw "valgrind").1
  let kw1 := (kwPop kw "valgrind").2
  if v.truthy then
    let vg := if v = PyVal.bool true then PyVal.str "valgrind" else v
    let errorcode := (getenv "VIC_VALGRIND_ERROR").getD (toString default_vic_valgrind_error_code)
    let st1 := { st with args := st.args ++ [vg, PyVal.str "-v", PyVal.str "--leak-check=full",
                                             PyVal.str ("--error-exitcode=" ++ errorcode)] }
    let suppressions := (getenv "VIC_VALGRIND_SUPPRESSIONS").getD default_vic_valgrind_suppressions_path
    let st2 := if (fs suppressions).isSome then
        { st1 with args := st1.args ++ [PyVal.str ("--suppressions=" ++ suppressions)] }
      else st1
    (st2, kw1)
  else (st, kw1)

/-- Lines 132-135 of `vic.py`: any named options left after `mpi_proc`,
`mpi_exe` and `valgrind` were consumed raise
`ValueError('Unknown argument(s): ...')` listing their names. -/
def kwargsCheck (st : VICState) (kw : List (String × PyVal)) : Except (PyError × VICState) Unit :=
  if kw.isEmpty then .ok ()
  else .error (.valueError ("Unknown argument(s): " ++ joinStrs ", " (kw.map Prod.fst)), st)

/-- `VIC._call_vic(*args, **kwargs)` (lines 101-151 of `vic.py`): reset
`self.args`, run the mpi / valgrind / leftover-kwargs stages, append the
executable and the positional arguments, join everything into the command
string, and hand that string to the subprocess oracle, recording stdout,
stderr and the return code.  An error carries the handle state as mutated
up to the raise. -/
def callVic (fs : String → Option String) (getenv : String → Option String)
    (spawn : String → String × String × Int)
    (st : VICState) (posArgs : List String) (kwargs : List (String × PyVal)) :
    Except (PyError × VICState) VICState :=
  (mpiStage { st with args := ([] : List PyVal) } kwargs).bind (fun r =>
    let sv := valgrindStage fs getenv r.1 r.2
    (kwargsCheck sv.1 sv.2).bind (fun _ =>
      let st3 := { sv.1 with args := sv.1.args ++ [PyVal.str sv.1.executable] ++ posArgs.map PyVal.str }
      match pyJoinArgs " " st3.args with
      | .error e => .error (e, st3)
      | .ok s =>
        .ok { st3 with argstring := s, stdout := (spawn s).1, stderr := (spawn s).2.1,
                       returncode := (spawn s).2.2 }))

/-- The exact argument segment `valgrindStage` appends: empty when `valgrind`
is not truthy, otherwise the leak-check flags (with the error exit code from
the environment) plus the suppressions flag when the suppressions file
exists. -/
def valgrindSeg (fs : String → Option String) (g : String → Option String)
    (kw : List (String × PyVal)) : List PyVal :=
  let v := (kwPop kw "valgrind").1
  if v.truthy then
    let vg := if v = PyVal.bool true then PyVal.str "valgrind" else v
    let ec := (g "VIC_VALGRIND_ERROR").getD (toString default_vic_valgrind_error_code)
    let base := [vg, PyVal.str "-v", PyVal.str "--leak-check=full",
                 PyVal.str ("--error-exitcode=" ++ ec)]
    let sup := (g "VIC_VALGRIND_SUPPRESSIONS").getD default_vic_valgrind_suppressions_path
    if (fs sup).isSome then base ++ [PyVal.str ("--suppressions=" ++ sup)] else base
  else []

/-- Empty filesystem: no path is a file. -/
def fsEmpty : String → Option String := fun _ => Option.none

/-- Empty environment: no variable is set. -/
def envEmpty : String → Option String := fun _ => Option.none

/-- A fixed subprocess oracle for concrete instantiations. -/
def spawnNull : String → String × String × Int := fun _ => ("out", "err", 0)

/-- A concrete handle state for concrete instantiations. -/
def stVic : VICState :=
  { executable := "vic", args := [], argstring := "", stdout := "so", stderr := "se", returncode := 7 }

/-- The handle state produced by the concrete `mpi_proc = 4` invocation. -/
def stVicMpi4 : VICState :=
  { executable := "vic", args := [PyVal.str "mpirun", PyVal.str "-np", PyVal.str "4", PyVal.str "vic"],
    argstring := "mpirun -np 4 vic", stdout := "out", stderr := "err", returncode := 0 }

/-- `hasSub needle hay`: the character sequence `needle` occurs contiguously
inside `hay` (the sense in which an error message "names" an option). -/
def hasSub (needle : List Char) : List Char → Bool
  | [] => needle.isEmpty
  | c :: rest => needle.isPrefixOf (c :: rest) || hasSub needle rest

/-- The named options `_call_vic` does not recognise: everything left after
`mpi_proc`, `mpi_exe` and `valgrind` are popped. -/
def unknownKwargs (kw : List (String × PyVal)) : List (String × PyVal) :=
  kw.filter (fun kv => kv.1 != "valgrind" && (kv.1 != "mpi_exe" && kv.1 != "mpi_proc"))

/-- Python `str.strip(chars)`: remove every leading and every trailing
character that occurs in `chars` (all of them, from both ends). -/
def pyStrip (chars : String) (s : String) : String :=
  ⟨((s.data.dropWhile (fun c => chars.data.contains c)).reverse.dropWhile
      (fun c => chars.data.contains c)).reverse⟩

/-- List worker for Python `str.replace`: replace all non-overlapping
occurrences left to right; `fuel` bounds the recursion by the list length
so the definition stays structurally recursive. -/
def replaceListAux (pat rep : List Char) : Nat → List Char → List Char
  | _, [] => []
  | 0, l => l
  | fuel + 1, c :: rest =>
    if pat ≠ [] ∧ pat.isPrefixOf (c :: rest) then
      rep ++ replaceListAux pat rep fuel (rest.drop (pat.length - 1))
    else c :: replaceListAux pat rep fuel rest

/-- Python `s.replace(pat, rep)` (for the non-empty patterns used here). -/
def pyReplace (s pat rep : String) : String :=
  ⟨replaceListAux pat.data rep.data s.data.length s.data⟩

/-- Python `str.split()` with no argument: split on runs of whitespace,
discarding empty fields.  `acc` accumulates the current field reversed. -/
def wsSplitAux : List Char → List Char → List String
  | [], acc => if acc.isEmpty then [] else [⟨acc.reverse⟩]
  | c :: rest, acc =>
    if c.isWhitespace then
      if acc.isEmpty then wsSplitAux rest [] else ⟨acc.reverse⟩ :: wsSplitAux rest []
    else wsSplitAux rest (c :: acc)

def pySplitWs (s : String) : List String := wsSplitAux s.data []

/-- Line 182 of `vic.py`: `names.strip('#').replace('OUT_', '').split()`. -/
def headerNames (line : String) : List String :=
  pySplitWs (pyReplace (pyStrip "#" line) "OUT_" "")

/-- Follows claim C2's words, not the code: strip a single leading marker
character, split on whitespace, and strip an `OUT_` prefix from each token
(only as a prefix). -/
def headerNamesSpecC2 (line : String) : List String :=
  (pySplitWs (match line.data with
    | '#' :: rest => (⟨rest⟩ : String)
    | _ => line)).map (fun t =>
      if ("OUT_".data).isPrefixOf t.data then (⟨t.data.drop 4⟩ : String) else t)

def digitsValAux : List Char → Nat → Option Nat
  | [], acc => some acc
  | c :: rest, acc =>
    if c.isDigit then digitsValAux rest (acc * 10 + (c.toNat - 48)) else Option.none

/-- Decimal integer parsing for well-formed VIC output cells (optional minus
sign plus digits), as the tabular reader performs for numeric columns. -/
def pyToInt (s : String) : Option Int :=
  match s.data with
  | [] => Option.none
  | '-' :: rest =>
    if rest.isEmpty then Option.none else (digitsValAux rest 0).map (fun m => -(m : Int))
  | l => (digitsValAux l 0).map (fun m => (m : Int))

/-- One data line split into integer fields (cells failing the numeric
parse are modelled as 0; they do not occur in well-formed files). -/
def parseRow (line : String) : List Int :=
  (pySplitWs line).map (fun t => (pyToInt t).getD 0)

/-- The keyword arguments `read_vic_ascii` hands to the tabular reader. -/
structure ReadTableArgs where
  headerRow : Option Nat
  skiprows : Nat
  names : Option (List String)
  parseDatesCols : Option (List String)
  indexCol : Option Nat
deriving DecidableEq

/-- A composite timestamp assembled from year/month/day(/hour) fields. -/
structure PyDT where
  year : Int
  month : Int
  day : Int
  hour : Int
deriving DecidableEq

inductive DFIndex where
  | positional (n : Nat)
  | datetimes (ds : List PyDT)
deriving DecidableEq

structure DataFrame where
  index : DFIndex
  columns : List String
  rows : List (List Int)
deriving DecidableEq

/-- Combine time-column values (in `YEAR MONTH DAY [HOUR]` order) into one
timestamp; a missing fourth component means hour 0. -/
def combineDT (vals : List Int) : PyDT :=
  { year := vals.getD 0 0, month := vals.getD 1 0, day := vals.getD 2 0, hour := vals.getD 3 0 }

/-- Modelled from the spec: `pandas.read_table`, the external tabular-data
library call, which is not part of this repository.  Per the spec (§1,
§4.2, §6) it skips `skiprows` lines, parses whitespace-separated numeric
fields using the supplied `names` as column names with no header row
consumed, and, when `parse_dates={'datetime': time_cols}` with
`index_col=0` is given, combines the named time columns into a single
datetime column that replaces them and becomes the row index. -/
def readTable (lines : List String) (a : ReadTableArgs) : DataFrame :=
  let raw := (lines.drop a.skiprows).map parseRow
  let cols := a.names.getD []
  match a.parseDatesCols, a.indexCol with
  | some tcols, some 0 =>
    let tpos := tcols.map (fun c => cols.indexOf c)
    let ds := raw.map (fun r => combineDT (tpos.map (fun i => r.getD i 0)))
    let keepPos := (List.range cols.length).filter (fun i => !(tcols.contains (cols.getD i "")))
    { index := DFIndex.datetimes ds,
      columns := cols.filter (fun c => !(tcols.contains c)),
      rows := raw.map (fun r => keepPos.map (fun i => r.getD i 0)) }
  | _, _ =>
    { index := DFIndex.positional raw.length, columns := cols, rows := raw }

/-- Lines 168-192 of `vic.py`: assemble the tabular-reader arguments
(`header=None`, `skiprows=6` under `header=True`, `names` derived from line
6 when absent, `parse_dates`/`index_col` when `parse_dates` is set),
including the `StopIteration` from `next(f)` on a short file and the
`TypeError` Python raises at `'HOUR' in names` when `names` is `None`. -/
def read_vic_ascii_args (lines : List String) (header : Bool) (parse_dates : Bool)
    (names : Option (List String)) : Except PyError ReadTableArgs :=
  let a0 : ReadTableArgs :=
    { headerRow := Option.none, skiprows := 0, names := Option.none,
      parseDatesCols := Option.none, indexCol := Option.none }
  (if header then
     match names with
     | Option.none =>
       match lines.drop 5 with
       | [] => Except.error PyError.stopIteration
       | l :: _ => Except.ok ({ a0 with skiprows := 6 }, some (headerNames l))
     | some ns => Except.ok ({ a0 with skiprows := 6 }, some ns)
   else Except.ok (a0, names)).bind (fun r =>
    let a := { r.1 with names := r.2 }
    if parse_dates then
      match r.2 with
      | Option.none => Except.error (PyError.typeError "argument of type NoneType is not iterable")
      | some ns =>
        let time_cols := if ns.contains "HOUR" then ["YEAR", "MONTH", "DAY", "HOUR"]
                         else ["YEAR", "MONTH", "DAY"]
        Except.ok { a with parseDatesCols := some time_cols, indexCol := some 0 }
    else Except.ok a)

/-- `read_vic_ascii` (lines 156-198 of `vic.py`) over the file's lines (each
line carrying its trailing newline, as Python file iteration yields):
assemble the reader arguments, run the (modelled) tabular reader, then let
a supplied `datetime_index` replace the index wholesale. -/
def read_vic_ascii (lines : List String) (header : Bool) (parse_dates : Bool)
    (datetime_index : Option (List PyDT)) (names : Option (List String)) :
    Except PyError DataFrame :=
  (read_vic_ascii_args lines header parse_dates names).bind (fun a =>
    let df := readTable lines a
    match datetime_index with
    | Option.none => Except.ok df
    | some idx => Except.ok { df with index := DFIndex.datetimes idx })

/-- A concrete seven-line file whose header line defeats claim C2's
description of the name derivation. -/
def fileC2 : List String :=
  ["L0\n", "L1\n", "L2\n", "L3\n", "L4\n", "##A SNOUT_X\n", "1 2\n"]

/-- A well-formed daily output file: five header lines, a comment line of
column names, two data rows. -/
def fileC5a : List String :=
  ["VIC\n", "v5\n", "h\n", "h\n", "h\n", "# YEAR MONTH DAY OUT_PREC\n",
   "1990 1 1 5\n", "1990 1 2 6\n"]

/-- A well-formed sub-daily output file with an `HOUR` column. -/
def fileC5b : List String :=
  ["VIC\n", "v5\n", "h\n", "h\n", "h\n", "# YEAR MONTH DAY HOUR OUT_PREC\n",
   "1990 1 1 23 5\n"]

/-- The ambient world `run` interacts with: file contents by path, the
environment, the subprocess oracle, the unique fresh name `tempfile.mkstemp`
would produce, and the wall clock (`%Y%m%d` date string plus the seconds
since local midnight as already rounded by the `"%05.f"` format). -/
structure World where
  fs : String → Option String
  getenv : String → Option String
  spawn : String → String × String × Int
  tmpName : String
  nowDate : String
  nowSeconds : Nat

/-- Writing `content` to path `p`. -/
def updateFs (fs : String → Option String) (p content : String) : String → Option String :=
  fun q => if q = p then some content else fs q

/-- `os.path.join(d, name)` for a directory given without a trailing slash. -/
def pathJoin (d name : String) : String := d ++ "/" ++ name

/-- `"%05.f" % seconds`: the rounded seconds zero-padded to width 5. -/
def zeroPad5 (n : Nat) : String :=
  (⟨List.replicate (5 - (toString n).length) '0'⟩ : String) ++ toString n

/-- `VIC.run` (lines 45-99 of `vic.py`): when `global_param` is not an
existing file, write it verbatim to the fresh temp file and use that path;
invoke `_call_vic('-g', path, **kwargs)`; when `logdir` is truthy write the
captured stdout and stderr to `stdout_<ts>.txt` / `stderr_<ts>.txt` in it
(one shared timestamp, exact bytes); return the exit code. -/
def run (w : World) (st : VICState) (global_param : String) (logdir : Option String)
    (kwargs : List (String × PyVal)) :
    Except (PyError × World × VICState) (World × VICState × Int) :=
  let wg := if (w.fs global_param).isSome then (w, global_param)
            else ({ w with fs := updateFs w.fs w.tmpName global_param }, w.tmpName)
  match callVic wg.1.fs wg.1.getenv wg.1.spawn st ["-g", wg.2] kwargs with
  | .error (e, st') => .error (e, wg.1, st')
  | .ok st' =>
    let w2 := match logdir with
      | Option.none => wg.1
      | some d =>
        if d.isEmpty then wg.1
        else
          let timestr := wg.1.nowDate ++ "_" ++ zeroPad5 wg.1.nowSeconds
          let wa := { wg.1 with
            fs := updateFs wg.1.fs (pathJoin d ("stdout_" ++ timestr ++ ".txt")) st'.stdout }
          { wa with
            fs := updateFs wa.fs (pathJoin d ("stderr_" ++ timestr ++ ".txt")) st'.stderr }
    .ok (w2, st', st'.returncode)

/-- A concrete world whose filesystem is empty, for instantiating the
temp-file materialisation theorem. -/
def worldInline : World :=
  { fs := fun _ => Option.none, getenv := fun _ => Option.none,
    spawn := fun _ => ("out", "err", 0),
    tmpName := "/tmp/vic.global.param.k3j2.txt", nowDate := "19900101", nowSeconds := 3661 }

/-- A concrete world holding one parameter file, for instantiating the
log-file theorem. -/
def worldLog : World :=
  { fs := fun q => if q = "gp.txt" then some "PARAMS\n" else Option.none,
    getenv := fun _ => Option.none,
    spawn := fun _ => ("out", "err", 0),
    tmpName := "/tmp/t.txt", nowDate := "19900101", nowSeconds := 3661 }

lemma valgrindStage_eq (fs g : String → Option String) (st : VICState)
    (kw : List (String × PyVal)) :
    valgrindStage fs g st kw =
      ({ st with args := st.args ++ valgrindSeg fs g kw }, (kwPop kw "valgrind").2) := by
  unfold valgrindStage valgrindSeg
  by_cases h1 : (kwPop kw "valgrind").1.truthy = true
  · by_cases h2 : (fs ((g "VIC_VALGRIND_SUPPRESSIONS").getD default_vic_valgrind_suppressions_path)).isSome = true
    · simp [h1, h2, List.append_assoc]
    · simp [h1, h2]
  · simp [h1]

lemma mpiStage_mpi_one (st : VICState) (rest : List (String × PyVal))
    (h : "mpi_proc" ∉ rest.map Prod.fst) :
    mpiStage st (("mpi_proc", PyVal.int 1) :: rest) = mpiStage st rest := by
  have hf : rest.filter (fun kv => kv.1 != "mpi_proc") = rest := List.filter_eq_self.2 (by
    intro kv hm
    simp only [bne_iff_ne, ne_eq, decide_eq_true_eq]
    intro he
    exact h (he ▸ List.mem_map_of_mem Prod.fst hm))
  have hfind : rest.find? (fun kv => kv.1 == "mpi_proc") = none := List.find?_eq_none.2 (by
    intro kv hm hb
    exact h ((by simpa using hb : kv.1 = "mpi_proc") ▸ List.mem_map_of_mem Prod.fst hm))
  simp [mpiStage, kwPop, hf, hfind, PyVal.isInt, PyVal.intVal]

lemma mpiStage_mpi_int (st : VICState) (n : Int) (e : String) (rest : List (String × PyVal))
    (hn : n ≠ 1) :
    mpiStage st (("mpi_proc", PyVal.int n) :: ("mpi_exe", PyVal.str e) :: rest) =
      .ok ({ st with args := st.args ++ [PyVal.str e, PyVal.str "-np", PyVal.str (formatNpD n)] },
           (rest.filter (fun kv => kv.1 != "mpi_proc")).filter (fun kv => kv.1 != "mpi_exe")) := by
  simp [mpiStage, kwPop, PyVal.isInt, PyVal.intVal, hn]

lemma mpiStage_mpi_bad (st : VICState) (p : PyVal) (rest : List (String × PyVal))
    (hp1 : p.isInt = false) (hp2 : p ≠ PyVal.none) :
    mpiStage st (("mpi_proc", p) :: rest) =
      .error (.typeError "number of processors must be specified as aninteger", st) := by
  simp [mpiStage, kwPop, hp1, hp2]

/-- Claim C1 (amended): in `_call_vic`, `mpi_proc = 1` builds the same call
as omitting `mpi_proc`; any other integer `n` puts the prefix
`<mpi_exe> -np <'%.0d' % n>` before the executable, where `'%.0d'` renders
every integer exactly except 0, which renders as the empty string; and a
non-integer, non-`None` value raises `TypeError` before any process is
spawned (the result is the same error for every subprocess oracle). -/
theorem vic_c1_mpi_proc_spec :
    (∀ (fs g : String → Option String) (sp : String → String × String × Int)
       (st : VICState) (pos : List String) (rest : List (String × PyVal)),
      "mpi_proc" ∉ rest.map Prod.fst →
      callVic fs g sp st pos (("mpi_proc", PyVal.int 1) :: rest) = callVic fs g sp st pos rest) ∧
    (∀ (fs g : String → Option String) (sp : String → String × String × Int)
       (st : VICState) (pos : List String) (rest : List (String × PyVal)) (n : Int) (e : String)
       (st' : VICState), n ≠ 1 →
      callVic fs g sp st pos (("mpi_proc", PyVal.int n) :: ("mpi_exe", PyVal.str e) :: rest) = .ok st' →
      ∃ tail, st'.args = PyVal.str e :: PyVal.str "-np" :: PyVal.str (formatNpD n) :: tail ∧
        PyVal.str st.executable ∈ tail) ∧
    (∀ (fs g : String → Option String) (st : VICState) (pos : List String)
       (rest : List (String × PyVal)) (p : PyVal), p.isInt = false → p ≠ PyVal.none →
      ∀ sp, callVic fs g sp st pos (("mpi_proc", p) :: rest) =
        .error (.typeError "number of processors must be specified as aninteger",
                { st with args := [] })) := by
  refine ⟨?_, ?_, ?_⟩
  · intro fs g sp st pos rest h
    simp only [callVic]
    rw [mpiStage_mpi_one _ _ h]
  · intro fs g sp st pos rest n e st' hn hok
    simp only [callVic] at hok
    rw [mpiStage_mpi_int _ _ _ _ hn] at hok
    simp only [Except.bind] at hok
    rw [valgrindStage_eq] at hok
    unfold kwargsCheck at hok
    split at hok
    all_goals try exact Except.noConfusion hok
    split at hok
    all_goals try exact Except.noConfusion hok
    simp only [Except.ok.injEq] at hok
    subst hok
    refine ⟨valgrindSeg fs g ((rest.filter (fun kv => kv.1 != "mpi_proc")).filter (fun kv => kv.1 != "mpi_exe"))
              ++ PyVal.str st.executable :: pos.map PyVal.str, by simp, by simp⟩
  · intro fs g st pos rest p hp1 hp2 sp
    simp only [callVic]
    rw [mpiStage_mpi_bad _ _ _ hp1 hp2]
    rfl

/-- Claim C1 counterexample: with `mpi_proc = 0` the call succeeds and the
built argument list is `["mpirun", "-np", "", "vic"]` — the value 0 is
rendered as the empty string (`'%.0d' % 0 = ''`), so the prefix
`mpirun -np 0` does not appear verbatim as the claim states. -/
theorem vic_c1_counterexample :
    callVic fsEmpty envEmpty spawnNull stVic []
        [("mpi_proc", PyVal.int 0), ("mpi_exe", PyVal.str "mpirun")] =
      .ok { executable := "vic",
            args := [PyVal.str "mpirun", PyVal.str "-np", PyVal.str "", PyVal.str "vic"],
            argstring := "mpirun -np  vic", stdout := "out", stderr := "err", returncode := 0 } ∧
    PyVal.str "0" ∉ [PyVal.str "mpirun", PyVal.str "-np", PyVal.str "", PyVal.str "vic"] ∧
    formatNpD 0 = "" :=
  ⟨rfl, by decide, rfl⟩

/-- Witness for C1: the amended theorem instantiated at concrete calls with
`mpi_proc = 1`, `mpi_proc = 4` and `mpi_proc = "x"`. -/
theorem vic_c1_mpi_proc_spec_witness :
    (callVic fsEmpty envEmpty spawnNull stVic [] [("mpi_proc", PyVal.int 1)] =
      callVic fsEmpty envEmpty spawnNull stVic [] []) ∧
    (∃ tail, stVicMpi4.args = PyVal.str "mpirun" :: PyVal.str "-np" :: PyVal.str (formatNpD 4) :: tail ∧
      PyVal.str stVic.executable ∈ tail) ∧
    (callVic fsEmpty envEmpty spawnNull stVic [] [("mpi_proc", PyVal.str "x")] =
      .error (.typeError "number of processors must be specified as aninteger",
              { stVic with args := [] })) :=
  ⟨vic_c1_mpi_proc_spec.1 fsEmpty envEmpty spawnNull stVic [] [] (by decide),
   vic_c1_mpi_proc_spec.2.1 fsEmpty envEmpty spawnNull stVic [] [] 4 "mpirun" stVicMpi4 (by decide) rfl,
   vic_c1_mpi_proc_spec.2.2 fsEmpty envEmpty stVic [] [] (PyVal.str "x") rfl (by decide) spawnNull⟩

lemma all_isStr_map (l : List String) : (l.map PyVal.str).all PyVal.isStr = true := by
  induction l with
  | nil => rfl
  | cons x xs ih => simp [List.all_cons, ih, PyVal.isStr]

/-- Generic success form of `callVic`: when the mpi stage succeeds, no unknown
named options remain and every argument element is a string, the call
returns the fully built state. -/
lemma callVic_ok_of (fs g : String → Option String) (sp : String → String × String × Int)
    (st : VICState) (pos : List String) (kwargs : List (String × PyVal))
    (stM : VICState) (kwM : List (String × PyVal))
    (hm : mpiStage { st with args := ([] : List PyVal) } kwargs = .ok (stM, kwM))
    (hk : (kwPop kwM "valgrind").2 = [])
    (hstr : ((stM.args ++ valgrindSeg fs g kwM) ++ [PyVal.str stM.executable]
              ++ pos.map PyVal.str).all PyVal.isStr = true) :
    callVic fs g sp st pos kwargs = .ok
      { stM with
        args := (stM.args ++ valgrindSeg fs g kwM) ++ [PyVal.str stM.executable] ++ pos.map PyVal.str,
        argstring := joinStrs " " (((stM.args ++ valgrindSeg fs g kwM) ++ [PyVal.str stM.executable]
                      ++ pos.map PyVal.str).map PyVal.strVal),
        stdout := (sp (joinStrs " " (((stM.args ++ valgrindSeg fs g kwM) ++ [PyVal.str stM.executable]
                      ++ pos.map PyVal.str).map PyVal.strVal))).1,
        stderr := (sp (joinStrs " " (((stM.args ++ valgrindSeg fs g kwM) ++ [PyVal.str stM.executable]
                      ++ pos.map PyVal.str).map PyVal.strVal))).2.1,
        returncode := (sp (joinStrs " " (((stM.args ++ valgrindSeg fs g kwM) ++ [PyVal.str stM.executable]
                      ++ pos.map PyVal.str).map PyVal.strVal))).2.2 } := by
  simp only [callVic]
  rw [hm]
  simp only [Except.bind]
  rw [valgrindStage_eq, hk]
  simp only [kwargsCheck, List.isEmpty_nil, if_true, Except.bind]
  unfold pyJoinArgs
  rw [if_pos hstr]

/-- Claim C3 (confirmed): with `valgrind=True` the built argument list is
exactly `valgrind -v --leak-check=full --error-exitcode=<E>` where `E` is
`VIC_VALGRIND_ERROR` when set and `"125"` otherwise, followed by
`--suppressions=<P>` (path from `VIC_VALGRIND_SUPPRESSIONS`, default
`vic_valgrind_suppressions.supp`) if and only if that file exists, then the
executable and the positional arguments. -/
theorem vic_c3_valgrind_flags :
    ∀ (fs g : String → Option String) (sp : String → String × String × Int)
      (st : VICState) (pos : List String), ∃ st',
    callVic fs g sp st pos [("valgrind", PyVal.bool true)] = .ok st' ∧
    st'.args =
      [PyVal.str "valgrind", PyVal.str "-v", PyVal.str "--leak-check=full",
       PyVal.str ("--error-exitcode=" ++ ((g "VIC_VALGRIND_ERROR").getD "125"))] ++
      (if (fs ((g "VIC_VALGRIND_SUPPRESSIONS").getD "vic_valgrind_suppressions.supp")).isSome
        then [PyVal.str ("--suppressions=" ++
                ((g "VIC_VALGRIND_SUPPRESSIONS").getD "vic_valgrind_suppressions.supp"))]
        else []) ++
      [PyVal.str st.executable] ++ pos.map PyVal.str := by
  intro fs g sp st pos
  have hm : mpiStage { st with args := ([] : List PyVal) } [("valgrind", PyVal.bool true)] =
      .ok ({ st with args := ([] : List PyVal) }, [("valgrind", PyVal.bool true)]) := by
    simp [mpiStage, kwPop, PyVal.isInt]
  have h125 : toString default_vic_valgrind_error_code = "125" := rfl
  have hseg : valgrindSeg fs g [("valgrind", PyVal.bool true)] =
      [PyVal.str "valgrind", PyVal.str "-v", PyVal.str "--leak-check=full",
       PyVal.str ("--error-exitcode=" ++ ((g "VIC_VALGRIND_ERROR").getD "125"))] ++
      (if (fs ((g "VIC_VALGRIND_SUPPRESSIONS").getD "vic_valgrind_suppressions.supp")).isSome
        then [PyVal.str ("--suppressions=" ++
                ((g "VIC_VALGRIND_SUPPRESSIONS").getD "vic_valgrind_suppressions.supp"))]
        else []) := by
    unfold valgrindSeg
    rw [h125]
    by_cases h2 : (fs ((g "VIC_VALGRIND_SUPPRESSIONS").getD "vic_valgrind_suppressions.supp")).isSome = true
    · simp [kwPop, PyVal.truthy, default_vic_valgrind_suppressions_path, h2]
    · simp [kwPop, PyVal.truthy, default_vic_valgrind_suppressions_path, h2]
  have hstr : (((({ st with args := ([] : List PyVal) } : VICState).args
        ++ valgrindSeg fs g [("valgrind", PyVal.bool true)])
        ++ [PyVal.str ({ st with args := ([] : List PyVal) } : VICState).executable]
        ++ pos.map PyVal.str).all PyVal.isStr) = true := by
    rw [hseg]
    by_cases h2 : (fs ((g "VIC_VALGRIND_SUPPRESSIONS").getD "vic_valgrind_suppressions.supp")).isSome = true
    · simp [h2, List.all_append, all_isStr_map, PyVal.isStr]
    · simp [h2, List.all_append, all_isStr_map, PyVal.isStr]
  refine ⟨_, callVic_ok_of fs g sp st pos _ _ _ hm rfl hstr, ?_⟩
  simp [hseg]

lemma hasSub_append_right (u t : List Char) (h : hasSub u t = true) (hd : List Char) :
    hasSub u (hd ++ t) = true := by
  induction hd with
  | nil => exact h
  | cons c rest ih =>
    simp only [List.cons_append, hasSub, Bool.or_eq_true]
    exact Or.inr ih

lemma hasSub_of_isPrefixOf (u h : List Char) (hp : u.isPrefixOf h = true) :
    hasSub u h = true := by
  cases h with
  | nil =>
    cases u with
    | nil => rfl
    | cons c cs => simp [List.isPrefixOf] at hp
  | cons c rest =>
    simp only [hasSub, Bool.or_eq_true]
    exact Or.inl hp

lemma isPrefixOf_append_self (u t : List Char) : u.isPrefixOf (u ++ t) = true := by
  simp only [List.isPrefixOf_iff_prefix]
  exact List.prefix_append u t

lemma mem_hasSub_joinStrs (u : String) (l : List String) (hm : u ∈ l) :
    hasSub u.data (joinStrs ", " l).data = true := by
  induction l with
  | nil => cases hm
  | cons s rest ih =>
    cases rest with
    | nil =>
      have hu : u = s := by
        cases hm with
        | head => rfl
        | tail _ h => cases h
      subst hu
      exact hasSub_of_isPrefixOf _ _ (by simp [joinStrs, List.isPrefixOf_iff_prefix])
    | cons s2 rest2 =>
      cases hm with
      | head =>
        apply hasSub_of_isPrefixOf
        rw [show joinStrs ", " (u :: s2 :: rest2) = u ++ ", " ++ joinStrs ", " (s2 :: rest2) from rfl]
        rw [String.data_append, String.data_append, List.append_assoc]
        exact isPrefixOf_append_self _ _
      | tail _ h2 =>
        rw [show joinStrs ", " (s :: s2 :: rest2) = s ++ ", " ++ joinStrs ", " (s2 :: rest2) from rfl]
        rw [String.data_append, String.data_append, List.append_assoc]
        exact hasSub_append_right _ _ (hasSub_append_right _ _ (ih h2) ", ".data) s.data

lemma leftoverKw_eq (kw : List (String × PyVal)) :
    (kwPop (kwPop (kwPop kw "mpi_proc").2 "mpi_exe").2 "valgrind").2 = unknownKwargs kw := by
  simp only [kwPop, unknownKwargs, List.filter_filter]

lemma mpiStage_cases (st : VICState) (kw : List (String × PyVal)) :
    (mpiStage st kw = .error (.typeError "number of processors must be specified as aninteger", st)) ∨
    (∃ seg, mpiStage st kw =
      .ok ({ st with args := st.args ++ seg }, (kwPop (kwPop kw "mpi_proc").2 "mpi_exe").2)) := by
  unfold mpiStage
  by_cases h1 : ((kwPop kw "mpi_proc").1.isInt && ((kwPop kw "mpi_proc").1.intVal == 1)) = true
  · right
    refine ⟨[], ?_⟩
    simp [h1]
  · by_cases h2 : (kwPop kw "mpi_proc").1 = PyVal.none
    · right
      refine ⟨[], ?_⟩
      simp [h1, h2]
    · by_cases h3 : (kwPop kw "mpi_proc").1.isInt = true
      · right
        have h4 : ¬ ((kwPop kw "mpi_proc").1.intVal = 1) := fun he => h1 (by simp [h3, he])
        refine ⟨[(kwPop (kwPop kw "mpi_proc").2 "mpi_exe").1, PyVal.str "-np",
                 PyVal.str (formatNpD (kwPop kw "mpi_proc").1.intVal)], ?_⟩
        simp [h1, h2, h3, h4]
      · left
        simp [h1, h2, h3]

lemma mpiStage_ok_of_valid (st : VICState) (kw : List (String × PyVal))
    (h : (kwPop kw "mpi_proc").1.isInt = true ∨ (kwPop kw "mpi_proc").1 = PyVal.none) :
    ∃ seg, mpiStage st kw =
      .ok ({ st with args := st.args ++ seg }, (kwPop (kwPop kw "mpi_proc").2 "mpi_exe").2) := by
  rcases mpiStage_cases st kw with he | hok
  · exfalso
    unfold mpiStage at he
    rcases h with h | h
    · by_cases h1 : ((kwPop kw "mpi_proc").1.intVal == 1) = true
      · simp [h, h1] at he
      · by_cases h2 : (kwPop kw "mpi_proc").1 = PyVal.none
        · simp [h, h1, h2] at he
        · simp [h, h1, h2] at he
    · simp [h, PyVal.isInt] at he
  · exact hok

/-- Claim C4 (amended): provided `mpi_proc` is absent, `None` or an integer,
a call carrying any unrecognised named option raises, for every subprocess
oracle, `ValueError` whose message lists every leftover option
comma-separated, and each leftover option's name occurs in the message. -/
theorem vic_c4_unknown_kwargs_spec :
    ∀ (fs g : String → Option String) (st : VICState) (pos : List String)
      (kw : List (String × PyVal)),
    ((kwPop kw "mpi_proc").1.isInt = true ∨ (kwPop kw "mpi_proc").1 = PyVal.none) →
    unknownKwargs kw ≠ [] →
    ∃ st'', (∀ sp, callVic fs g sp st pos kw =
        .error (.valueError ("Unknown argument(s): " ++
                joinStrs ", " ((unknownKwargs kw).map Prod.fst)), st'')) ∧
      (∀ u ∈ (unknownKwargs kw).map Prod.fst,
        hasSub u.data ("Unknown argument(s): " ++
                joinStrs ", " ((unknownKwargs kw).map Prod.fst)).data = true) := by
  intro fs g st pos kw hmpi hne
  obtain ⟨seg, hmok⟩ := mpiStage_ok_of_valid { st with args := ([] : List PyVal) } kw hmpi
  have hemp : (unknownKwargs kw).isEmpty = false := by
    cases hq : unknownKwargs kw with
    | nil => exact absurd hq hne
    | cons a l => rfl
  refine ⟨(⟨st.executable, ([] : List PyVal) ++ seg ++
      valgrindSeg fs g ((kwPop (kwPop kw "mpi_proc").2 "mpi_exe").2),
      st.argstring, st.stdout, st.stderr, st.returncode⟩ : VICState), fun sp => ?_, fun u hu => ?_⟩
  · simp only [callVic]
    rw [hmok]
    simp only [Except.bind]
    rw [valgrindStage_eq]
    rw [leftoverKw_eq kw]
    simp only [kwargsCheck, hemp, Bool.false_eq_true, if_false]
  · rw [String.data_append]
    exact hasSub_append_right _ _ (mem_hasSub_joinStrs u _ hu) _

/-- Claim C4 counterexample: carrying both an unrecognised option `foo` and
a non-integer `mpi_proc` raises the `mpi_proc` `TypeError` first, whose
message does not name `foo` — so the claim's "names every unrecognized
option" fails as stated. -/
theorem vic_c4_counterexample :
    callVic fsEmpty envEmpty spawnNull stVic []
        [("foo", PyVal.none), ("mpi_proc", PyVal.str "bad")] =
      .error (.typeError "number of processors must be specified as aninteger",
              { stVic with args := [] }) ∧
    hasSub "foo".data "number of processors must be specified as aninteger".data = false :=
  ⟨rfl, by decide⟩

/-- Witness for C4: the amended theorem instantiated at a concrete call
carrying only the unknown option `foo`. -/
theorem vic_c4_unknown_kwargs_spec_witness :
    ((kwPop [("foo", PyVal.int 3)] "mpi_proc").1.isInt = true ∨
      (kwPop [("foo", PyVal.int 3)] "mpi_proc").1 = PyVal.none) ∧
    unknownKwargs [("foo", PyVal.int 3)] ≠ [] ∧
    (∃ st'', (∀ sp, callVic fsEmpty envEmpty sp stVic [] [("foo", PyVal.int 3)] =
        .error (.valueError ("Unknown argument(s): " ++
                joinStrs ", " ((unknownKwargs [("foo", PyVal.int 3)]).map Prod.fst)), st'')) ∧
      (∀ u ∈ (unknownKwargs [("foo", PyVal.int 3)]).map Prod.fst,
        hasSub u.data ("Unknown argument(s): " ++
                joinStrs ", " ((unknownKwargs [("foo", PyVal.int 3)]).map Prod.fst)).data = true)) :=
  ⟨Or.inr rfl, by decide,
   vic_c4_unknown_kwargs_spec fsEmpty envEmpty stVic [] [("foo", PyVal.int 3)] (Or.inr rfl) (by decide)⟩

lemma mpiStage_error_of_invalid (st : VICState) (kw : List (String × PyVal))
    (h1 : (kwPop kw "mpi_proc").1.isInt = false)
    (h2 : (kwPop kw "mpi_proc").1 ≠ PyVal.none) :
    mpiStage st kw =
      .error (.typeError "number of processors must be specified as aninteger", st) := by
  unfold mpiStage
  simp [h1, h2]

/-- Claim C8 (confirmed): when `_call_vic` rejects the call (invalid
`mpi_proc` type or unrecognised named options), the same error results for
every subprocess oracle and the handle's cached `stdout`, `stderr` and
`returncode` are exactly those of the previous invocation. -/
theorem vic_c8_error_preserves_results :
    ∀ (fs g : String → Option String) (st : VICState) (pos : List String)
      (kw : List (String × PyVal)),
    (((kwPop kw "mpi_proc").1.isInt = false ∧ (kwPop kw "mpi_proc").1 ≠ PyVal.none) ∨
      unknownKwargs kw ≠ []) →
    ∃ e st'', (∀ sp, callVic fs g sp st pos kw = .error (e, st'')) ∧
      st''.stdout = st.stdout ∧ st''.stderr = st.stderr ∧ st''.returncode = st.returncode := by
  intro fs g st pos kw h
  rcases h with ⟨h1, h2⟩ | hunk
  · refine ⟨.typeError "number of processors must be specified as aninteger",
      { st with args := ([] : List PyVal) }, fun sp => ?_, rfl, rfl, rfl⟩
    simp only [callVic]
    rw [mpiStage_error_of_invalid _ _ h1 h2]
    rfl
  · rcases mpiStage_cases ({ st with args := ([] : List PyVal) } : VICState) kw with he | ⟨seg, hok⟩
    · refine ⟨.typeError "number of processors must be specified as aninteger",
        { st with args := ([] : List PyVal) }, fun sp => ?_, rfl, rfl, rfl⟩
      simp only [callVic]
      rw [he]
      rfl
    · have hemp : (unknownKwargs kw).isEmpty = false := by
        cases hq : unknownKwargs kw with
        | nil => exact absurd hq hunk
        | cons a l => rfl
      refine ⟨.valueError ("Unknown argument(s): " ++
          joinStrs ", " ((unknownKwargs kw).map Prod.fst)),
        (⟨st.executable, ([] : List PyVal) ++ seg ++
          valgrindSeg fs g ((kwPop (kwPop kw "mpi_proc").2 "mpi_exe").2),
          st.argstring, st.stdout, st.stderr, st.returncode⟩ : VICState),
        fun sp => ?_, rfl, rfl, rfl⟩
      simp only [callVic]
      rw [hok]
      simp only [Except.bind]
      rw [valgrindStage_eq]
      rw [leftoverKw_eq kw]
      simp only [kwargsCheck, hemp, Bool.false_eq_true, if_false]

/-- Witness for C8: the theorem instantiated at a concrete call with
`mpi_proc = "z"` against a handle holding previous results. -/
theorem vic_c8_error_preserves_results_witness :
    (((kwPop [("mpi_proc", PyVal.str "z")] "mpi_proc").1.isInt = false ∧
       (kwPop [("mpi_proc", PyVal.str "z")] "mpi_proc").1 ≠ PyVal.none) ∨
      unknownKwargs [("mpi_proc", PyVal.str "z")] ≠ []) ∧
    (∃ e st'', (∀ sp, callVic fsEmpty envEmpty sp stVic [] [("mpi_proc", PyVal.str "z")] =
        .error (e, st'')) ∧
      st''.stdout = stVic.stdout ∧ st''.stderr = stVic.stderr ∧ st''.returncode = stVic.returncode) :=
  ⟨Or.inl (by decide),
   vic_c8_error_preserves_results fsEmpty envEmpty stVic [] [("mpi_proc", PyVal.str "z")]
     (Or.inl (by decide))⟩

/-- Claim C9 (confirmed): `mpi_proc` an integer other than 1 with `mpi_exe`
absent defaults `mpi_exe` to `None`, places `None` first in the argument
list, and the `' '.join` over the list raises `TypeError` before any
process is spawned (same error for every subprocess oracle). -/
theorem vic_c9_missing_mpi_exe :
    ∀ (fs g : String → Option String) (st : VICState) (pos : List String) (n : Int),
    n ≠ 1 →
    ∃ st', (∀ sp, callVic fs g sp st pos [("mpi_proc", PyVal.int n)] =
        .error (.typeError "sequence item: expected str instance", st')) ∧
      st'.args = PyVal.none :: PyVal.str "-np" :: PyVal.str (formatNpD n) ::
        PyVal.str st.executable :: pos.map PyVal.str ∧
      PyVal.none ∈ st'.args ∧
      st'.stdout = st.stdout ∧ st'.stderr = st.stderr ∧ st'.returncode = st.returncode := by
  intro fs g st pos n hn
  have hm : mpiStage { st with args := ([] : List PyVal) } [("mpi_proc", PyVal.int n)] =
      .ok ({ st with args := [PyVal.none, PyVal.str "-np", PyVal.str (formatNpD n)] }, []) := by
    simp [mpiStage, kwPop, PyVal.isInt, PyVal.intVal, hn]
  refine ⟨(⟨st.executable, PyVal.none :: PyVal.str "-np" :: PyVal.str (formatNpD n) ::
      PyVal.str st.executable :: pos.map PyVal.str,
      st.argstring, st.stdout, st.stderr, st.returncode⟩ : VICState),
    fun sp => ?_, rfl, by simp, rfl, rfl, rfl⟩
  simp only [callVic]
  rw [hm]
  simp only [Except.bind]
  rw [valgrindStage_eq]
  have hv0 : valgrindSeg fs g ([] : List (String × PyVal)) = [] := rfl
  have hk0 : (kwPop ([] : List (String × PyVal)) "valgrind").2 = [] := rfl
  rw [hv0, hk0]
  simp only [List.append_nil, kwargsCheck, List.isEmpty_nil, eq_self_iff_true, if_true, Except.bind]
  unfold pyJoinArgs
  rw [if_neg (by simp [PyVal.isStr])]
  rfl

/-- Witness for C9: the theorem instantiated at `mpi_proc = 4` with no
`mpi_exe`. -/
theorem vic_c9_missing_mpi_exe_witness :
    ((4 : Int) ≠ 1) ∧
    (∃ st', (∀ sp, callVic fsEmpty envEmpty sp stVic [] [("mpi_proc", PyVal.int 4)] =
        .error (.typeError "sequence item: expected str instance", st')) ∧
      st'.args = PyVal.none :: PyVal.str "-np" :: PyVal.str (formatNpD 4) ::
        PyVal.str stVic.executable :: List.map PyVal.str [] ∧
      PyVal.none ∈ st'.args ∧
      st'.stdout = stVic.stdout ∧ st'.stderr = stVic.stderr ∧ st'.returncode = stVic.returncode) :=
  ⟨by decide, vic_c9_missing_mpi_exe fsEmpty envEmpty stVic [] 4 (by decide)⟩

/-- Claim C2 counterexample: on the header line `"##A SNOUT_X\n"` the code
derives `["A", "SNX"]` (both `#` stripped, `OUT_` removed mid-token) while
the claim's procedure (single leading marker, token-wise `OUT_` prefix)
would give `["#A", "SNOUT_X"]`. -/
theorem vic_c2_counterexample :
    read_vic_ascii_args fileC2 true true Option.none =
      .ok { headerRow := Option.none, skiprows := 6, names := some ["A", "SNX"],
            parseDatesCols := some ["YEAR", "MONTH", "DAY"], indexCol := some 0 } ∧
    headerNamesSpecC2 (fileC2.getD 5 "") = ["#A", "SNOUT_X"] ∧
    headerNames (fileC2.getD 5 "") ≠ headerNamesSpecC2 (fileC2.getD 5 "") :=
  ⟨rfl, rfl, by decide⟩

/-- Claim C10 (confirmed): `header=False, parse_dates=True` with no `names`
fails with the `TypeError` from `'HOUR' in None`, independently of the
file's contents — no data is read. -/
theorem vic_c10_header_false_parse_dates :
    ∀ (lines : List String) (didx : Option (List PyDT)),
    read_vic_ascii lines false true didx Option.none =
      .error (.typeError "argument of type NoneType is not iterable") := by
  intro lines didx
  rfl

/-- Claim C2 (amended): reading with `header=True` and no `names` derives the
column names by skipping the first 5 lines, taking line 6, stripping ALL
leading and trailing `'#'` characters, removing EVERY occurrence of the
substring `OUT_` anywhere in the line, then splitting on whitespace; and
`skiprows` is set to exactly 6 for the data parse. -/
theorem vic_c2_header_names_spec :
    ∀ (lines : List String) (pd : Bool) (l : String) (rest : List String),
    lines.drop 5 = l :: rest →
    ∃ a, read_vic_ascii_args lines true pd Option.none = .ok a ∧
      a.skiprows = 6 ∧
      a.names = some (pySplitWs (pyReplace (pyStrip "#" l) "OUT_" "")) ∧
      a.headerRow = Option.none := by
  intro lines pd l rest h
  cases pd with
  | false =>
    refine ⟨{ headerRow := Option.none, skiprows := 6, names := some (headerNames l),
              parseDatesCols := Option.none, indexCol := Option.none }, ?_, rfl, rfl, rfl⟩
    simp [read_vic_ascii_args, h, Except.bind]
  | true =>
    by_cases hc : (headerNames l).contains "HOUR" = true
    · refine ⟨{ headerRow := Option.none, skiprows := 6, names := some (headerNames l),
                parseDatesCols := some ["YEAR", "MONTH", "DAY", "HOUR"], indexCol := some 0 },
              ?_, rfl, rfl, rfl⟩
      simp [read_vic_ascii_args, h, Except.bind]
      simpa using hc
    · have hc' : (headerNames l).contains "HOUR" = false := by
        cases hcc : (headerNames l).contains "HOUR"
        · rfl
        · exact absurd hcc hc
      refine ⟨{ headerRow := Option.none, skiprows := 6, names := some (headerNames l),
                parseDatesCols := some ["YEAR", "MONTH", "DAY"], indexCol := some 0 },
              ?_, rfl, rfl, rfl⟩
      simp [read_vic_ascii_args, h, Except.bind]
      simpa using hc'

/-- Witness for C2: the amended theorem instantiated at the concrete
seven-line file `fileC2`. -/
theorem vic_c2_header_names_spec_witness :
    fileC2.drop 5 = "##A SNOUT_X\n" :: ["1 2\n"] ∧
    (∃ a, read_vic_ascii_args fileC2 true true Option.none = .ok a ∧
      a.skiprows = 6 ∧
      a.names = some (pySplitWs (pyReplace (pyStrip "#" "##A SNOUT_X\n") "OUT_" "")) ∧
      a.headerRow = Option.none) :=
  ⟨rfl, vic_c2_header_names_spec fileC2 true "##A SNOUT_X\n" ["1 2\n"] rfl⟩

/-- Claim C5 (confirmed): reading a well-formed file with `header=True,
parse_dates=True` yields a table whose index is the datetimes built from the
`YEAR`/`MONTH`/`DAY` columns (hour 0) when no `HOUR` column is present, and
from `YEAR`/`MONTH`/`DAY`/`HOUR` when it is; the remaining columns are the
derived header names minus the time columns. -/
theorem vic_c5_parse_dates_spec :
    (∀ (lines : List String) (hline : String) (dataL : List String) (rest : List String),
      lines.drop 5 = hline :: dataL →
      headerNames hline = "YEAR" :: "MONTH" :: "DAY" :: rest →
      "YEAR" ∉ rest → "MONTH" ∉ rest → "DAY" ∉ rest → "HOUR" ∉ rest →
      ∃ df, read_vic_ascii lines true true Option.none Option.none = .ok df ∧
        df.columns = rest ∧
        df.index = DFIndex.datetimes (dataL.map (fun ln =>
          { year := (parseRow ln).getD 0 0, month := (parseRow ln).getD 1 0,
            day := (parseRow ln).getD 2 0, hour := 0 }))) ∧
    (∀ (lines : List String) (hline : String) (dataL : List String) (rest : List String),
      lines.drop 5 = hline :: dataL →
      headerNames hline = "YEAR" :: "MONTH" :: "DAY" :: "HOUR" :: rest →
      "YEAR" ∉ rest → "MONTH" ∉ rest → "DAY" ∉ rest → "HOUR" ∉ rest →
      ∃ df, read_vic_ascii lines true true Option.none Option.none = .ok df ∧
        df.columns = rest ∧
        df.index = DFIndex.datetimes (dataL.map (fun ln =>
          { year := (parseRow ln).getD 0 0, month := (parseRow ln).getD 1 0,
            day := (parseRow ln).getD 2 0, hour := (parseRow ln).getD 3 0 }))) := by
  constructor
  · intro lines hline dataL rest h5 hcols hY hM hD hH
    have h6 : lines.drop 6 = dataL := by
      have h' := List.drop_drop 1 5 lines
      rw [h5] at h'
      simpa using h'.symm
    have hcont : (headerNames hline).contains "HOUR" = false := by
      rw [hcols]
      simp [hH]
    have hargs : read_vic_ascii_args lines true true Option.none =
        .ok { headerRow := Option.none, skiprows := 6, names := some (headerNames hline),
              parseDatesCols := some ["YEAR", "MONTH", "DAY"], indexCol := some 0 } := by
      simp [read_vic_ascii_args, h5, Except.bind]
      simpa using hcont
    have hfilter : (headerNames hline).filter
        (fun c => !((["YEAR", "MONTH", "DAY"] : List String).contains c)) = rest := by
      rw [hcols]
      simp only [List.filter_cons]
      simp
      intro c hm
      exact ⟨fun he => hY (he ▸ hm), fun he => hM (he ▸ hm), fun he => hD (he ▸ hm)⟩
    simp only [read_vic_ascii]
    rw [hargs]
    simp only [Except.bind]
    refine ⟨_, rfl, ?_, ?_⟩
    · simp only [readTable, h6, hcols]
      simpa [hcols] using hfilter
    · simp only [readTable, h6, hcols]
      simp [List.map_map, combineDT, List.indexOf_cons_self, List.indexOf_cons_ne]
  · intro lines hline dataL rest h5 hcols hY hM hD hH
    have h6 : lines.drop 6 = dataL := by
      have h' := List.drop_drop 1 5 lines
      rw [h5] at h'
      simpa using h'.symm
    have hcont : (headerNames hline).contains "HOUR" = true := by
      rw [hcols]
      simp
    have hargs : read_vic_ascii_args lines true true Option.none =
        .ok { headerRow := Option.none, skiprows := 6, names := some (headerNames hline),
              parseDatesCols := some ["YEAR", "MONTH", "DAY", "HOUR"], indexCol := some 0 } := by
      simp [read_vic_ascii_args, h5, Except.bind]
      simpa using hcont
    have hfilter : (headerNames hline).filter
        (fun c => !((["YEAR", "MONTH", "DAY", "HOUR"] : List String).contains c)) = rest := by
      rw [hcols]
      simp only [List.filter_cons]
      simp
      intro c hm
      exact ⟨fun he => hY (he ▸ hm), fun he => hM (he ▸ hm), fun he => hD (he ▸ hm),
             fun he => hH (he ▸ hm)⟩
    simp only [read_vic_ascii]
    rw [hargs]
    simp only [Except.bind]
    refine ⟨_, rfl, ?_, ?_⟩
    · simp only [readTable, h6, hcols]
      simpa [hcols] using hfilter
    · simp only [readTable, h6, hcols]
      simp [List.map_map, combineDT, List.indexOf_cons_self, List.indexOf_cons_ne]

/-- Witness for C5: both parts instantiated at the concrete files `fileC5a`
(daily) and `fileC5b` (sub-daily with `HOUR`). -/
theorem vic_c5_parse_dates_spec_witness :
    (∃ df, read_vic_ascii fileC5a true true Option.none Option.none = .ok df ∧
      df.columns = ["PREC"] ∧
      df.index = DFIndex.datetimes ((["1990 1 1 5\n", "1990 1 2 6\n"] : List String).map (fun ln =>
        { year := (parseRow ln).getD 0 0, month := (parseRow ln).getD 1 0,
          day := (parseRow ln).getD 2 0, hour := 0 }))) ∧
    (∃ df, read_vic_ascii fileC5b true true Option.none Option.none = .ok df ∧
      df.columns = ["PREC"] ∧
      df.index = DFIndex.datetimes ((["1990 1 1 23 5\n"] : List String).map (fun ln =>
        { year := (parseRow ln).getD 0 0, month := (parseRow ln).getD 1 0,
          day := (parseRow ln).getD 2 0, hour := (parseRow ln).getD 3 0 }))) :=
  ⟨vic_c5_parse_dates_spec.1 fileC5a "# YEAR MONTH DAY OUT_PREC\n"
     ["1990 1 1 5\n", "1990 1 2 6\n"] ["PREC"] rfl (by decide)
     (by decide) (by decide) (by decide) (by decide),
   vic_c5_parse_dates_spec.2 fileC5b "# YEAR MONTH DAY HOUR OUT_PREC\n"
     ["1990 1 1 23 5\n"] ["PREC"] rfl (by decide)
     (by decide) (by decide) (by decide) (by decide)⟩

lemma callVic_ok_args (fs g : String → Option String) (sp : String → String × String × Int)
    (st : VICState) (pos : List String) (kwargs : List (String × PyVal)) (st' : VICState)
    (h : callVic fs g sp st pos kwargs = .ok st') :
    ∃ pre, st'.args = pre ++ [PyVal.str st.executable] ++ pos.map PyVal.str := by
  simp only [callVic] at h
  rcases mpiStage_cases ({ st with args := ([] : List PyVal) } : VICState) kwargs with he | ⟨seg, hok⟩
  · rw [he] at h
    exact absurd h (by simp [Except.bind])
  · rw [hok] at h
    simp only [Except.bind] at h
    rw [valgrindStage_eq] at h
    split at h
    all_goals try exact Except.noConfusion h
    split at h
    all_goals try exact Except.noConfusion h
    simp only [Except.ok.injEq] at h
    subst h
    exact ⟨seg ++ valgrindSeg fs g ((kwPop (kwPop kwargs "mpi_proc").2 "mpi_exe").2), by simp⟩

/-- Claim C6 (confirmed): `run` with a `global_param` that is not an existing
file writes that exact string into the fresh temp file (on the error path
too), and on success the invocation's argument list ends with
`<executable> -g <temp-path>`. -/
theorem vic_c6_inline_param_materialised :
    ∀ (w : World) (st : VICState) (gp : String) (kwargs : List (String × PyVal)),
    w.fs gp = Option.none →
    w.fs w.tmpName = Option.none →
    ((∀ e w' st'', run w st gp Option.none kwargs = .error (e, w', st'') →
        w'.fs w.tmpName = some gp) ∧
     (∀ w' st' rc, run w st gp Option.none kwargs = .ok (w', st', rc) →
        w'.fs w.tmpName = some gp ∧
        ∃ pre, st'.args = pre ++ [PyVal.str st.executable, PyVal.str "-g", PyVal.str w.tmpName])) := by
  intro w st gp kwargs hgp htmp
  constructor
  · intro e w' st'' h
    simp only [run, hgp, Option.isSome_none, Bool.false_eq_true, if_false] at h
    split at h
    · simp only [Except.error.injEq, Prod.mk.injEq] at h
      rcases h with ⟨_, hw, _⟩
      subst hw
      simp [updateFs]
    · exact Except.noConfusion h
  · intro w' st' rc h
    simp only [run, hgp, Option.isSome_none, Bool.false_eq_true, if_false] at h
    split at h
    · exact Except.noConfusion h
    · rename_i st1 hcall
      simp only [Except.ok.injEq, Prod.mk.injEq] at h
      rcases h with ⟨hw, hst, _⟩
      subst hw
      subst hst
      constructor
      · simp [updateFs]
      · obtain ⟨pre, hargs⟩ := callVic_ok_args _ _ _ _ _ _ _ hcall
        exact ⟨pre, by simpa [List.append_assoc] using hargs⟩

/-- Witness for C6: the theorem instantiated at a concrete world with an
empty filesystem and an inline two-line parameter string. -/
theorem vic_c6_inline_param_materialised_witness :
    ((∀ e w' st'', run worldInline stVic "OPTIONS\nNODES 10\n" Option.none [] = .error (e, w', st'') →
        w'.fs worldInline.tmpName = some "OPTIONS\nNODES 10\n") ∧
     (∀ w' st' rc, run worldInline stVic "OPTIONS\nNODES 10\n" Option.none [] = .ok (w', st', rc) →
        w'.fs worldInline.tmpName = some "OPTIONS\nNODES 10\n" ∧
        ∃ pre, st'.args = pre ++ [PyVal.str stVic.executable, PyVal.str "-g",
                                  PyVal.str worldInline.tmpName])) :=
  vic_c6_inline_param_materialised worldInline stVic "OPTIONS\nNODES 10\n" [] rfl rfl

lemma stdout_stderr_path_ne (d t : String) :
    pathJoin d ("stdout_" ++ t ++ ".txt") ≠ pathJoin d ("stderr_" ++ t ++ ".txt") := by
  intro h
  have h1 := congrArg String.data h
  simp only [pathJoin, String.data_append] at h1
  have h2 := List.append_cancel_left h1
  rw [List.append_assoc, List.append_assoc] at h2
  have h3 := (List.append_inj h2 (by decide)).1
  exact absurd h3 (by decide)

/-- Claim C7 (confirmed): `run` with `logdir=d` writes exactly two new files
`d/stdout_<date>_<SSSSS>.txt` and `d/stderr_<date>_<SSSSS>.txt` — one shared
timestamp, distinct names — whose contents are exactly the captured stdout
and stderr of the spawned process, and changes nothing else on disk. -/
theorem vic_c7_log_files :
    ∀ (w : World) (st : VICState) (gp c d : String),
    w.fs gp = some c →
    d.isEmpty = false →
    w.fs (pathJoin d ("stdout_" ++ (w.nowDate ++ "_" ++ zeroPad5 w.nowSeconds) ++ ".txt")) = Option.none →
    w.fs (pathJoin d ("stderr_" ++ (w.nowDate ++ "_" ++ zeroPad5 w.nowSeconds) ++ ".txt")) = Option.none →
    ∃ w' st', run w st gp (some d) [] = .ok (w', st', st'.returncode) ∧
      w'.fs (pathJoin d ("stdout_" ++ (w.nowDate ++ "_" ++ zeroPad5 w.nowSeconds) ++ ".txt")) =
        some st'.stdout ∧
      w'.fs (pathJoin d ("stderr_" ++ (w.nowDate ++ "_" ++ zeroPad5 w.nowSeconds) ++ ".txt")) =
        some st'.stderr ∧
      st'.stdout = (w.spawn st'.argstring).1 ∧
      st'.stderr = (w.spawn st'.argstring).2.1 ∧
      pathJoin d ("stdout_" ++ (w.nowDate ++ "_" ++ zeroPad5 w.nowSeconds) ++ ".txt") ≠
        pathJoin d ("stderr_" ++ (w.nowDate ++ "_" ++ zeroPad5 w.nowSeconds) ++ ".txt") ∧
      (∀ q, q ≠ pathJoin d ("stdout_" ++ (w.nowDate ++ "_" ++ zeroPad5 w.nowSeconds) ++ ".txt") →
        q ≠ pathJoin d ("stderr_" ++ (w.nowDate ++ "_" ++ zeroPad5 w.nowSeconds) ++ ".txt") →
        w'.fs q = w.fs q) := by
  intro w st gp c d hgp hde hf1 hf2
  have hm : mpiStage { st with args := ([] : List PyVal) } ([] : List (String × PyVal)) =
      .ok ({ st with args := ([] : List PyVal) }, []) := by
    simp [mpiStage, kwPop]
  have hv0 : valgrindSeg w.fs w.getenv ([] : List (String × PyVal)) = [] := rfl
  have hstr : ((({ st with args := ([] : List PyVal) } : VICState).args
        ++ valgrindSeg w.fs w.getenv ([] : List (String × PyVal)))
        ++ [PyVal.str ({ st with args := ([] : List PyVal) } : VICState).executable]
        ++ (["-g", gp] : List String).map PyVal.str).all PyVal.isStr = true := by
    rw [hv0]
    simp [PyVal.isStr]
  have hok := callVic_ok_of w.fs w.getenv w.spawn st ["-g", gp] [] _ _ hm rfl hstr
  simp only [run, hgp, Option.isSome_some, if_true]
  rw [hok]
  simp only [hde, Bool.false_eq_true, if_false]
  refine ⟨_, _, rfl, ?_, ?_, rfl, rfl, stdout_stderr_path_ne d _, ?_⟩
  · simp [updateFs, stdout_stderr_path_ne d (w.nowDate ++ "_" ++ zeroPad5 w.nowSeconds)]
  · simp [updateFs]
  · intro q hq1 hq2
    simp [updateFs, hq1, hq2]

/-- Witness for C7: the theorem instantiated at the concrete world
`worldLog` with log directory `"logs"`. -/
theorem vic_c7_log_files_witness :
    worldLog.fs "gp.txt" = some "PARAMS\n" ∧
    (∃ w' st', run worldLog stVic "gp.txt" (some "logs") [] = .ok (w', st', st'.returncode) ∧
      w'.fs (pathJoin "logs" ("stdout_" ++ (worldLog.nowDate ++ "_" ++ zeroPad5 worldLog.nowSeconds)
        ++ ".txt")) = some st'.stdout ∧
      w'.fs (pathJoin "logs" ("stderr_" ++ (worldLog.nowDate ++ "_" ++ zeroPad5 worldLog.nowSeconds)
        ++ ".txt")) = some st'.stderr ∧
      st'.stdout = (worldLog.spawn st'.argstring).1 ∧
      st'.stderr = (worldLog.spawn st'.argstring).2.1 ∧
      pathJoin "logs" ("stdout_" ++ (worldLog.nowDate ++ "_" ++ zeroPad5 worldLog.nowSeconds) ++ ".txt") ≠
        pathJoin "logs" ("stderr_" ++ (worldLog.nowDate ++ "_" ++ zeroPad5 worldLog.nowSeconds) ++ ".txt") ∧
      (∀ q, q ≠ pathJoin "logs" ("stdout_" ++ (worldLog.nowDate ++ "_" ++ zeroPad5 worldLog.nowSeconds)
          ++ ".txt") →
        q ≠ pathJoin "logs" ("stderr_" ++ (worldLog.nowDate ++ "_" ++ zeroPad5 worldLog.nowSeconds)
          ++ ".txt") →
        w'.fs q = worldLog.fs q)) :=
  ⟨rfl, vic_c7_log_files worldLog stVic "gp.txt" "PARAMS\n" "logs" rfl rfl (by decide) (by decide)⟩
